import Mathlib

/-!
Shallow embedding of the token issuance / validation / revocation subsystem of
the Lawrose user service (`src/modules/auth/token/token.service.ts`).

The Redis client is modelled as an association list of entries together with an
availability flag; every store call (`get`, `setex`, `del`, `keys`) throws when
the store is unavailable, matching a rejected ioredis promise.  JWT signing and
verification are modelled symbolically: a signed token records its payload and
the secret / issuer / audience it was signed with, verification checks those
fields and the expiry, and `decode` returns the payload without any check
(returning `none` on a malformed, i.e. non-JWT, string).  Times are natural
numbers in milliseconds (`Date.now()`), converted to seconds by `/ 1000` where
the source does `Math.floor(Date.now() / 1000)`.
-/

namespace Lawrose

/-- The `TokenPayload` interface: decoded JWT claims.  `iat` and `exp` are in
seconds, as produced by the jwt library. -/
structure TokenPayload where
  sub : String
  email : String
  emailVerified : Bool
  type : Option String
  iat : Nat
  exp : Nat
deriving Repr, DecidableEq

/-- A token string: either a well-formed signed JWT (carrying its payload and
the secret / issuer / audience it was signed with, which model the signature),
or an arbitrary raw string that no JWT decoder accepts. -/
inductive TokenStr where
  | jwt (payload : TokenPayload) (secret issuer audience : String)
  | raw (s : String)
deriving Repr, DecidableEq

/-- The JSON object stored under one-time-token keys
(`{userId, email, expiresAt, type}`, `expiresAt` in ms). -/
structure StoredTokenData where
  userId : String
  email : String
  expiresAt : Nat
  type : String
deriving Repr, DecidableEq

/-- A Redis value: either a plain string (the blacklist stores the string 1) or the
JSON serialization of a `StoredTokenData` (serialization is modelled as the
identity on this variant). -/
inductive RVal where
  | plain (s : String)
  | data (d : StoredTokenData)
deriving Repr, DecidableEq

/-- One Redis entry: key, value, the TTL in seconds passed to `SETEX`, and the
time (ms) at which it was written.  TTL is recorded but the model does not
auto-expire entries; expiry of an entry is the derived notion
`setAt / 1000 + ttl`. -/
structure REntry where
  key : String
  val : RVal
  ttl : Nat
  setAt : Nat
deriving Repr, DecidableEq

/-- The Redis store: entries plus an availability flag; every command on an
unavailable store rejects. -/
structure RedisStore where
  entries : List REntry
  available : Bool
deriving Repr, DecidableEq

/-- Pure lookup: the most recently written entry for a key. -/
def redisLookup (st : RedisStore) (k : String) : Option RVal :=
  (st.entries.find? (fun e => e.key = k)).map (fun e => e.val)

/-- The `GET key` — `none` models a null reply. -/
def redisGet (st : RedisStore) (k : String) : Except String (Option RVal) :=
  if st.available then .ok (redisLookup st k) else .error "store unavailable"

/-- The `SETEX key ttl value` at time `now` (ms); overwrites any previous entry. -/
def redisSetex (st : RedisStore) (now : Nat) (k : String) (ttl : Nat) (v : RVal) :
    Except String RedisStore :=
  if st.available then
    .ok { st with entries := ⟨k, v, ttl, now⟩ :: st.entries.filter (fun e => e.key ≠ k) }
  else .error "store unavailable"

/-- The `DEL key`. -/
def redisDel (st : RedisStore) (k : String) : Except String RedisStore :=
  if st.available then
    .ok { st with entries := st.entries.filter (fun e => e.key ≠ k) }
  else .error "store unavailable"

/-- The `DEL k1 k2 ...` (variadic form used by the cleanup sweep). -/
def redisDelMany (st : RedisStore) (ks : List String) : Except String RedisStore :=
  if st.available then
    .ok { st with entries := st.entries.filter (fun e => ¬ e.key ∈ ks) }
  else .error "store unavailable"

/-- Glob prefix match for a `pre*` pattern, on the character level. -/
def keyMatches (pre k : String) : Bool := pre.data.isPrefixOf k.data

/-- The `KEYS pattern` for a glob pattern of the form `pre*`. -/
def redisKeys (st : RedisStore) (pre : String) : Except String (List String) :=
  if st.available then
    .ok ((st.entries.filter (fun e => keyMatches pre e.key)).map (fun e => e.key))
  else .error "store unavailable"

/-- The `jwt.decode`: returns the payload without verifying anything; returns null
(`none`) on malformed input rather than throwing. -/
def jwtDecode : TokenStr → Option TokenPayload
  | .jwt p _ _ _ => some p
  | .raw _ => none

/-- The `jwt.verify(token, {secret, issuer, audience})` at time `nowMs`: checks the
signature (modelled as equality of the recorded secret), the issuer and
audience claims, and expiry (`exp ≤ now` in seconds is expired). -/
def jwtVerify (tok : TokenStr) (secret issuer audience : String) (nowMs : Nat) :
    Except String TokenPayload :=
  match tok with
  | .raw _ => .error "jwt malformed"
  | .jwt p s i a =>
    if s ≠ secret then .error "invalid signature"
    else if i ≠ issuer then .error "jwt issuer invalid"
    else if a ≠ audience then .error "jwt audience invalid"
    else if p.exp ≤ nowMs / 1000 then .error "jwt expired"
    else .ok p

/-- The `createHash(sha256).update(token).digest(hex)`, modelled as a
deterministic injective-by-construction encoding of the token string (hash
collisions are out of scope). -/
def hashToken (tok : TokenStr) : String :=
  match tok with
  | .raw s => "raw(" ++ s ++ ")"
  | .jwt p sec iss aud =>
    "jwt(" ++ p.sub ++ "," ++ p.email ++ "," ++ (if p.emailVerified then "1" else "0") ++ ","
      ++ (match p.type with | some t => "t:" ++ t | none => "-") ++ ","
      ++ toString p.iat ++ "," ++ toString p.exp ++ ","
      ++ sec ++ "," ++ iss ++ "," ++ aud ++ ")"

/-- Configuration: `JWT_SECRET` is always set; `JWT_REFRESH_SECRET` may be
absent. -/
structure Config where
  jwtSecret : String
  jwtRefreshSecret : Option String
deriving Repr, DecidableEq

/-- JavaScript `a || b` on a config lookup: `undefined` and the empty string
are both falsy. -/
def jsOr (a : Option String) (b : String) : String :=
  match a with
  | some s => if s = "" then b else s
  | none => b

/-- Whether each of the two `signAsync` calls rejects (models a signing-engine
failure). -/
structure SignEnv where
  accessFails : Bool
  refreshFails : Bool
deriving Repr, DecidableEq

def ACCESS_TOKEN_EXPIRY_SEC : Nat := 15 * 60

def REFRESH_TOKEN_EXPIRY_SEC : Nat := 7 * 24 * 60 * 60

/-- Twenty-four hours, in ms. -/
def VERIFICATION_TOKEN_EXPIRY : Nat := 24 * 60 * 60 * 1000

/-- Ten minutes, in ms. -/
def MAGIC_LINK_EXPIRY : Nat := 10 * 60 * 1000

def ISSUER : String := "lawrose-user-service"

def AUDIENCE : String := "lawrose-app"

/-- The caller-supplied part of a payload (`Omit<TokenPayload, type|iat|exp>`). -/
structure BasePayload where
  sub : String
  email : String
  emailVerified : Bool
deriving Repr, DecidableEq

/-- The `generateAccessToken`: signs the payload extended with type `access`, using
`JWT_SECRET`, 15m expiry, fixed issuer/audience. -/
def generateAccessToken (env : SignEnv) (cfg : Config) (p : BasePayload) (nowMs : Nat) :
    Except String TokenStr :=
  if env.accessFails then .error "Failed to generate access token"
  else .ok (.jwt ⟨p.sub, p.email, p.emailVerified, some "access",
    nowMs / 1000, nowMs / 1000 + ACCESS_TOKEN_EXPIRY_SEC⟩ cfg.jwtSecret ISSUER AUDIENCE)

/-- The `generateRefreshToken`: signs the payload extended with type `refresh`, using
`JWT_REFRESH_SECRET || JWT_SECRET`, 7d expiry. -/
def generateRefreshToken (env : SignEnv) (cfg : Config) (p : BasePayload) (nowMs : Nat) :
    Except String TokenStr :=
  if env.refreshFails then .error "Failed to generate refresh token"
  else .ok (.jwt ⟨p.sub, p.email, p.emailVerified, some "refresh",
    nowMs / 1000, nowMs / 1000 + REFRESH_TOKEN_EXPIRY_SEC⟩
    (jsOr cfg.jwtRefreshSecret cfg.jwtSecret) ISSUER AUDIENCE)

/-- The `generateTokenPair`: `Promise.all` of the two signing calls; any rejection
rejects the whole operation and no token is returned. -/
def generateTokenPair (env : SignEnv) (cfg : Config) (p : BasePayload) (nowMs : Nat) :
    Except String (TokenStr × TokenStr) := do
  let a ← generateAccessToken env cfg p nowMs
  let r ← generateRefreshToken env cfg p nowMs
  return (a, r)

/-- The `TokenValidationResult` interface. -/
structure TokenValidationResult where
  isValid : Bool
  payload : Option TokenPayload
  error : Option String
deriving Repr, DecidableEq

/-- The `isTokenBlacklisted`: hashes the token and checks presence of
`blacklist:<hash>`; any store error is caught and treated as not-blacklisted
(the source comment: Fail safe - do not block valid tokens due to Redis issues). -/
def isTokenBlacklisted (st : RedisStore) (tok : TokenStr) : Bool :=
  match redisGet st ("blacklist:" ++ hashToken tok) with
  | .ok r => r.isSome
  | .error _ => false

/-- The `validateToken(token, type)`: blacklist check first, then `jwt.verify` with
the type-dependent secret, then the token-type check
(`if (payload.type && payload.type !== type)`, where a missing or empty `type`
claim is falsy and skips the check). -/
def validateToken (cfg : Config) (st : RedisStore) (nowMs : Nat) (tok : TokenStr)
    (ty : String) : TokenValidationResult :=
  if isTokenBlacklisted st tok then
    ⟨false, none, some "Token has been revoked"⟩
  else
    let secret := if ty = "refresh" then jsOr cfg.jwtRefreshSecret cfg.jwtSecret
      else cfg.jwtSecret
    match jwtVerify tok secret ISSUER AUDIENCE nowMs with
    | .error e => ⟨false, none, some e⟩
    | .ok p =>
      match p.type with
      | some t =>
        if t ≠ "" ∧ t ≠ ty then ⟨false, none, some "Invalid token type"⟩
        else ⟨true, some p, none⟩
      | none => ⟨true, some p, none⟩

/-- Result type shared by the magic-link / verification operations
(`{isValid, userId?, error?}`). -/
structure OneTimeResult where
  isValid : Bool
  userId : Option String
  error : Option String
deriving Repr, DecidableEq

/-- The magic-link store key: `magic_link:${email}:${token}`. -/
def mlKey (email token : String) : String := "magic_link:" ++ email ++ ":" ++ token

/-- The verification store key: `verification:${email}:${token}`. -/
def vKey (email token : String) : String := "verification:" ++ email ++ ":" ++ token

/-- The `generateMagicLinkToken`: the random raw token is a parameter (it is drawn
from `randomBytes`); writes the record with a 600 s TTL and
`expiresAt = now + MAGIC_LINK_EXPIRY`. -/
def generateMagicLinkToken (st : RedisStore) (nowMs : Nat) (userId email token : String) :
    Except String (String × RedisStore) :=
  match redisSetex st nowMs (mlKey email token) (MAGIC_LINK_EXPIRY / 1000)
      (.data ⟨userId, email, nowMs + MAGIC_LINK_EXPIRY, "magic_link"⟩) with
  | .ok st2 => .ok (token, st2)
  | .error _ => .error "Failed to generate magic link token"

/-- The `validateMagicLinkToken(token, email)`: looks up
`magic_link:${email}:${token}`; missing record → "Invalid or expired magic link
token"; `now > expiresAt` → delete and "Magic link token has expired";
`timingSafeEqual` on the email buffers (throwing on length mismatch, caught by
the outer handler); returns the stored `userId` on success.  Any thrown error
(store failure, JSON/buffer errors) is caught into "Failed to validate magic
link token". -/
def validateMagicLinkToken (st : RedisStore) (nowMs : Nat) (token email : String) :
    OneTimeResult × RedisStore :=
  match redisGet st (mlKey email token) with
  | .error _ => (⟨false, none, some "Failed to validate magic link token"⟩, st)
  | .ok none => (⟨false, none, some "Invalid or expired magic link token"⟩, st)
  | .ok (some (.plain _)) => (⟨false, none, some "Failed to validate magic link token"⟩, st)
  | .ok (some (.data d)) =>
    if d.expiresAt < nowMs then
      match redisDel st (mlKey email token) with
      | .ok st2 => (⟨false, none, some "Magic link token has expired"⟩, st2)
      | .error _ => (⟨false, none, some "Failed to validate magic link token"⟩, st)
    else if email.utf8ByteSize ≠ d.email.utf8ByteSize then
      (⟨false, none, some "Failed to validate magic link token"⟩, st)
    else if email ≠ d.email then
      (⟨false, none, some "Invalid magic link token"⟩, st)
    else
      (⟨true, some d.userId, none⟩, st)

/-- The `consumeMagicLinkToken`: validate, then delete the key on success.  The
delete is outside any try/catch, so a store failure there rejects. -/
def consumeMagicLinkToken (st : RedisStore) (nowMs : Nat) (token email : String) :
    Except String (OneTimeResult × RedisStore) :=
  let r := validateMagicLinkToken st nowMs token email
  if r.1.isValid then
    match redisDel r.2 (mlKey email token) with
    | .ok st2 => .ok (r.1, st2)
    | .error e => .error e
  else .ok r

/-- The `blacklistToken(token)`: `jwt.decode` without trust (null on malformed
input — `if (decoded && decoded.exp)` then skips silently, including when
`exp` is the falsy `0`); `ttl = exp - floor(now/1000)`; stores
`blacklist:<hash>` with exactly that TTL when `ttl > 0`, otherwise no-op.
Only a thrown error (store failure) is converted to an
`InternalServerErrorException`. -/
def blacklistToken (st : RedisStore) (nowMs : Nat) (tok : TokenStr) :
    Except String RedisStore :=
  match jwtDecode tok with
  | none => .ok st
  | some d =>
    if d.exp = 0 then .ok st
    else
      let ttl : Int := (d.exp : Int) - ((nowMs / 1000 : Nat) : Int)
      if 0 < ttl then
        match redisSetex st nowMs ("blacklist:" ++ hashToken tok) ttl.toNat (.plain "1") with
        | .ok st2 => .ok st2
        | .error _ => .error "Failed to blacklist token"
      else .ok st

/-- The `generateVerificationTokenWithExpiry`: like the magic-link issuance but
under `verification:` with a 24 h TTL and type `email_verification`. -/
def generateVerificationTokenWithExpiry (st : RedisStore) (nowMs : Nat)
    (userId email token : String) : Except String (String × Nat × RedisStore) :=
  match redisSetex st nowMs (vKey email token) (VERIFICATION_TOKEN_EXPIRY / 1000)
      (.data ⟨userId, email, nowMs + VERIFICATION_TOKEN_EXPIRY, "email_verification"⟩) with
  | .ok st2 => .ok (token, nowMs + VERIFICATION_TOKEN_EXPIRY, st2)
  | .error _ => .error "Failed to generate verification token"

/-- The `validateVerificationToken`: identical structure to the magic-link
validator, with the `verification:` key space and its error strings. -/
def validateVerificationToken (st : RedisStore) (nowMs : Nat) (token email : String) :
    OneTimeResult × RedisStore :=
  match redisGet st (vKey email token) with
  | .error _ => (⟨false, none, some "Failed to validate verification token"⟩, st)
  | .ok none => (⟨false, none, some "Invalid or expired verification token"⟩, st)
  | .ok (some (.plain _)) => (⟨false, none, some "Failed to validate verification token"⟩, st)
  | .ok (some (.data d)) =>
    if d.expiresAt < nowMs then
      match redisDel st (vKey email token) with
      | .ok st2 => (⟨false, none, some "Verification token has expired"⟩, st2)
      | .error _ => (⟨false, none, some "Failed to validate verification token"⟩, st)
    else if email.utf8ByteSize ≠ d.email.utf8ByteSize then
      (⟨false, none, some "Failed to validate verification token"⟩, st)
    else if email ≠ d.email then
      (⟨false, none, some "Invalid verification token"⟩, st)
    else
      (⟨true, some d.userId, none⟩, st)

/-- The `consumeVerificationToken`: validate, then delete on success. -/
def consumeVerificationToken (st : RedisStore) (nowMs : Nat) (token email : String) :
    Except String (OneTimeResult × RedisStore) :=
  let r := validateVerificationToken st nowMs token email
  if r.1.isValid then
    match redisDel r.2 (vKey email token) with
    | .ok st2 => .ok (r.1, st2)
    | .error e => .error e
  else .ok r

/-- One pass of the `batchSize = 100` delete loop over a key list, returning
the number of deleted keys (the source adds `batch.length` per batch). -/
def delInBatches (st : RedisStore) (ks : List String) : Except String (Nat × RedisStore) :=
  if h : ks = [] then .ok (0, st)
  else
    match redisDelMany st (ks.take 100) with
    | .error e => .error e
    | .ok st2 =>
      match delInBatches st2 (ks.drop 100) with
      | .error e => .error e
      | .ok nst => .ok ((ks.take 100).length + nst.1, nst.2)
termination_by ks.length
decreasing_by
  simp only [List.length_drop]
  have : 0 < ks.length := List.length_pos.mpr h
  omega

/-- The `cleanupExpiredTokens` before the catch: `KEYS` then batched `DEL` for each
of the three patterns, accumulating `removedCount`. -/
def cleanupCore (st : RedisStore) : Except String (Nat × RedisStore) := do
  let ks1 ← redisKeys st "magic_link:"
  let r1 ← delInBatches st ks1
  let ks2 ← redisKeys r1.2 "verification:"
  let r2 ← delInBatches r1.2 ks2
  let ks3 ← redisKeys r2.2 "blacklist:"
  let r3 ← delInBatches r2.2 ks3
  return (r1.1 + r2.1 + r3.1, r3.2)

/-- The `cleanupExpiredTokens`: any thrown store error becomes an
`InternalServerErrorException`. -/
def cleanupExpiredTokens (st : RedisStore) : Except String (Nat × RedisStore) :=
  match cleanupCore st with
  | .ok r => .ok r
  | .error _ => .error "Failed to cleanup expired tokens"

/-- Derived notion: the millisecond at which the Redis TTL of a store entry
runs out. -/
def entryExpiryMs (e : REntry) : Nat := e.setAt + e.ttl * 1000

/-! ## Helper lemmas -/

/-- Deleting a key really removes every entry for it: a subsequent `find?` for
that key fails. -/
theorem find?_filter_ne_none (l : List REntry) (k : String) :
    (l.filter (fun e => e.key ≠ k)).find? (fun e => e.key = k) = none := by
  induction l with
  | nil => rfl
  | cons a l ih =>
    by_cases h : a.key = k
    · simpa [List.filter_cons, h] using ih
    · simp [List.filter_cons, h, List.find?_cons, ih]

/-- The `find?` with an always-false predicate finds nothing. -/
theorem find?_const_false (l : List REntry) : l.find? (fun _ => false) = none := by
  induction l with
  | nil => rfl
  | cons a l ih => simp [List.find?_cons, ih]

/-! ## C1 -/

/-- Claim C1: For every subject, email and emailVerified flag, `generateTokenPair`
(with both signing calls succeeding) followed immediately by `validateToken` on
the returned access token with expected kind `access` succeeds, and the
returned claims carry the supplied subject, email and emailVerified values with
token kind `access` (provided the fresh token string is not blacklisted in the
ambient store). -/
theorem validateToken_after_generateTokenPair
    (cfg : Config) (sub email : String) (ev : Bool) (nowMs : Nat) (st : RedisStore)
    (a r : TokenStr)
    (hgen : generateTokenPair ⟨false, false⟩ cfg ⟨sub, email, ev⟩ nowMs = .ok (a, r))
    (hbl : isTokenBlacklisted st a = false) :
    (validateToken cfg st nowMs a "access").isValid = true ∧
    (validateToken cfg st nowMs a "access").payload =
      some ⟨sub, email, ev, some "access", nowMs / 1000,
        nowMs / 1000 + ACCESS_TOKEN_EXPIRY_SEC⟩ := by
  have ha : a = .jwt ⟨sub, email, ev, some "access", nowMs / 1000,
      nowMs / 1000 + ACCESS_TOKEN_EXPIRY_SEC⟩ cfg.jwtSecret ISSUER AUDIENCE := by
    simp only [generateTokenPair, generateAccessToken, generateRefreshToken,
      Bool.false_eq_true, if_false, bind, Except.bind, pure, Except.pure,
      Except.ok.injEq, Prod.mk.injEq] at hgen
    exact hgen.1.symm
  subst ha
  have hexp : ¬ (nowMs / 1000 + ACCESS_TOKEN_EXPIRY_SEC ≤ nowMs / 1000) := by
    simp only [ACCESS_TOKEN_EXPIRY_SEC]
    omega
  simp [validateToken, hbl, jwtVerify, hexp]

/-- Witness for C1 at a concrete input. -/
theorem validateToken_after_generateTokenPair_witness :
    (validateToken ⟨"s", none⟩ ⟨[], true⟩ 0
      (.jwt ⟨"u1", "u@x", true, some "access", 0, 900⟩ "s" ISSUER AUDIENCE)
      "access").isValid = true ∧
    (validateToken ⟨"s", none⟩ ⟨[], true⟩ 0
      (.jwt ⟨"u1", "u@x", true, some "access", 0, 900⟩ "s" ISSUER AUDIENCE)
      "access").payload = some ⟨"u1", "u@x", true, some "access", 0, 900⟩ :=
  validateToken_after_generateTokenPair ⟨"s", none⟩ "u1" "u@x" true 0 ⟨[], true⟩
    (.jwt ⟨"u1", "u@x", true, some "access", 0, 900⟩ "s" ISSUER AUDIENCE)
    (.jwt ⟨"u1", "u@x", true, some "refresh", 0, 604800⟩ "s" ISSUER AUDIENCE)
    (by rfl) (by rfl)

/-! ## C2 -/

/-- Claim C2: Once `blacklistToken` has completed on a token whose natural expiry
has not yet passed, every subsequent `validateToken` call on that exact token
fails with the revocation error — for every validation time, expected kind and
config, which shows the revocation registry is consulted before signature
verification. -/
theorem validateToken_fails_after_blacklistToken
    (st st2 : RedisStore) (nowMs : Nat) (tok : TokenStr) (p : TokenPayload)
    (hdec : jwtDecode tok = some p)
    (hlive : nowMs / 1000 < p.exp)
    (hbl : blacklistToken st nowMs tok = .ok st2) :
    ∀ (cfg : Config) (nowMs2 : Nat) (ty : String),
      validateToken cfg st2 nowMs2 tok ty =
        ⟨false, none, some "Token has been revoked"⟩ := by
  intro cfg nowMs2 ty
  have hexp0 : ¬ (p.exp = 0) := by omega
  have httl : (0 : Int) < (p.exp : Int) - ((nowMs / 1000 : Nat) : Int) := by omega
  rw [blacklistToken] at hbl
  rw [hdec] at hbl
  simp only [hexp0, if_false, httl, if_true] at hbl
  cases hav : st.available with
  | false =>
    rw [redisSetex, if_neg (by simp [hav])] at hbl
    simp at hbl
  | true =>
    rw [redisSetex, if_pos (by simp [hav])] at hbl
    simp only [Except.ok.injEq] at hbl
    subst hbl
    have hfound : isTokenBlacklisted
        ⟨⟨"blacklist:" ++ hashToken tok, .plain "1",
            ((p.exp : Int) - ((nowMs / 1000 : Nat) : Int)).toNat, nowMs⟩ ::
          st.entries.filter (fun e => e.key ≠ "blacklist:" ++ hashToken tok), st.available⟩
        tok = true := by
      simp [isTokenBlacklisted, redisGet, redisLookup, hav, List.find?_cons]
    rw [validateToken, if_pos (by simpa using hfound)]

/-- Witness for C2 at a concrete input. -/
theorem validateToken_fails_after_blacklistToken_witness :
    validateToken ⟨"s", none⟩
      ⟨[⟨"blacklist:" ++ hashToken (.jwt ⟨"u1", "u@x", true, some "access", 0, 900⟩
          "s" ISSUER AUDIENCE), .plain "1", 900, 0⟩], true⟩ 5
      (.jwt ⟨"u1", "u@x", true, some "access", 0, 900⟩ "s" ISSUER AUDIENCE) "access" =
      ⟨false, none, some "Token has been revoked"⟩ :=
  validateToken_fails_after_blacklistToken ⟨[], true⟩
    ⟨[⟨"blacklist:" ++ hashToken (.jwt ⟨"u1", "u@x", true, some "access", 0, 900⟩
        "s" ISSUER AUDIENCE), .plain "1", 900, 0⟩], true⟩ 0
    (.jwt ⟨"u1", "u@x", true, some "access", 0, 900⟩ "s" ISSUER AUDIENCE)
    ⟨"u1", "u@x", true, some "access", 0, 900⟩ (by rfl) (by decide) (by rfl)
    ⟨"s", none⟩ 5 "access"

/-! ## C6 -/

/-- Claim C6: `isTokenBlacklisted` computes the hash of the token and checks presence
of the corresponding `blacklist:` entry, and on store unavailability it returns
`false` (fails open) instead of propagating the error. -/
theorem isTokenBlacklisted_hash_presence_fails_open (st : RedisStore) (tok : TokenStr) :
    isTokenBlacklisted st tok =
      (st.available && (redisLookup st ("blacklist:" ++ hashToken tok)).isSome) := by
  unfold isTokenBlacklisted redisGet
  cases h : st.available <;> simp [h]

/-! ## C7 -/

/-- Claim C7: `generateTokenPair` has no partial-failure state: if either signing
call fails, the whole operation fails and no token is returned; if both
succeed, both tokens are returned. -/
theorem generateTokenPair_no_partial_failure
    (env : SignEnv) (cfg : Config) (p : BasePayload) (nowMs : Nat) :
    ((env.accessFails || env.refreshFails) = true →
      ∃ e, generateTokenPair env cfg p nowMs = .error e) ∧
    ((env.accessFails || env.refreshFails) = false →
      generateTokenPair env cfg p nowMs =
        .ok (.jwt ⟨p.sub, p.email, p.emailVerified, some "access", nowMs / 1000,
              nowMs / 1000 + ACCESS_TOKEN_EXPIRY_SEC⟩ cfg.jwtSecret ISSUER AUDIENCE,
             .jwt ⟨p.sub, p.email, p.emailVerified, some "refresh", nowMs / 1000,
              nowMs / 1000 + REFRESH_TOKEN_EXPIRY_SEC⟩
              (jsOr cfg.jwtRefreshSecret cfg.jwtSecret) ISSUER AUDIENCE)) := by
  constructor
  · intro h
    cases hA : env.accessFails with
    | true =>
      exact ⟨"Failed to generate access token",
        by simp [generateTokenPair, generateAccessToken, hA, bind, Except.bind]⟩
    | false =>
      have hR : env.refreshFails = true := by
        rw [hA] at h
        simpa using h
      exact ⟨"Failed to generate refresh token",
        by simp [generateTokenPair, generateAccessToken, generateRefreshToken,
          hA, hR, bind, Except.bind]⟩
  · intro h
    rw [Bool.or_eq_false_iff] at h
    simp [generateTokenPair, generateAccessToken, generateRefreshToken,
      h.1, h.2, bind, Except.bind, pure, Except.pure]

/-- Witness for C7 at concrete inputs: one failing signing call, then both
succeeding. -/
theorem generateTokenPair_no_partial_failure_witness :
    (∃ e, generateTokenPair ⟨true, false⟩ ⟨"s", none⟩ ⟨"u", "e", true⟩ 0 = .error e) ∧
    generateTokenPair ⟨false, false⟩ ⟨"s", none⟩ ⟨"u", "e", true⟩ 0 =
      .ok (.jwt ⟨"u", "e", true, some "access", 0, 900⟩ "s" ISSUER AUDIENCE,
           .jwt ⟨"u", "e", true, some "refresh", 0, 604800⟩ "s" ISSUER AUDIENCE) :=
  ⟨(generateTokenPair_no_partial_failure ⟨true, false⟩ ⟨"s", none⟩ ⟨"u", "e", true⟩ 0).1 rfl,
   (generateTokenPair_no_partial_failure ⟨false, false⟩ ⟨"s", none⟩ ⟨"u", "e", true⟩ 0).2 rfl⟩

/-! ## C10 -/

/-- Claim C10: `validateToken` enforces the token-kind check only when the
decoded payload carries a `type` claim: a signature-valid, unexpired,
non-blacklisted token whose payload has no `type` claim validates successfully
for either expected kind, so `Invalid token type` is reachable only for tokens
that explicitly carry a mismatching type. -/
theorem validateToken_no_type_claim_accepts_both_kinds
    (cfg : Config) (st : RedisStore) (nowMs : Nat) (p : TokenPayload)
    (hty : p.type = none)
    (hsec : jsOr cfg.jwtRefreshSecret cfg.jwtSecret = cfg.jwtSecret)
    (hbl : isTokenBlacklisted st (.jwt p cfg.jwtSecret ISSUER AUDIENCE) = false)
    (hexp : nowMs / 1000 < p.exp) :
    validateToken cfg st nowMs (.jwt p cfg.jwtSecret ISSUER AUDIENCE) "access"
      = ⟨true, some p, none⟩ ∧
    validateToken cfg st nowMs (.jwt p cfg.jwtSecret ISSUER AUDIENCE) "refresh"
      = ⟨true, some p, none⟩ := by
  have h1 : ¬ (p.exp ≤ nowMs / 1000) := by omega
  constructor <;> simp [validateToken, hbl, jwtVerify, hsec, h1, hty]

/-- Witness for C10 at a concrete input. -/
theorem validateToken_no_type_claim_accepts_both_kinds_witness :
    validateToken ⟨"s", none⟩ ⟨[], true⟩ 0
      (.jwt ⟨"u", "e", false, none, 0, 100⟩ "s" ISSUER AUDIENCE) "access"
      = ⟨true, some ⟨"u", "e", false, none, 0, 100⟩, none⟩ ∧
    validateToken ⟨"s", none⟩ ⟨[], true⟩ 0
      (.jwt ⟨"u", "e", false, none, 0, 100⟩ "s" ISSUER AUDIENCE) "refresh"
      = ⟨true, some ⟨"u", "e", false, none, 0, 100⟩, none⟩ :=
  validateToken_no_type_claim_accepts_both_kinds ⟨"s", none⟩ ⟨[], true⟩ 0
    ⟨"u", "e", false, none, 0, 100⟩ rfl rfl (by rfl) (by decide)

/-! ## C3 -/

/-- Claim C3: A freshly issued one-time token (magic-link or email-verification)
is consumed exactly once: within its TTL the first `consume` with the issuing
email succeeds, returns the stored subject and deletes the record, and a second
`consume` with the same raw token and email fails with the
not-found-or-expired error — at any later time. -/
theorem consume_oneTimeToken_exactly_once :
    (∀ (st0 st1 : RedisStore) (now0 now1 : Nat) (userId email token : String),
      generateMagicLinkToken st0 now0 userId email token = .ok (token, st1) →
      now1 ≤ now0 + MAGIC_LINK_EXPIRY →
      ∃ st2, consumeMagicLinkToken st1 now1 token email =
          .ok (⟨true, some userId, none⟩, st2) ∧
        ∀ now2, consumeMagicLinkToken st2 now2 token email =
          .ok (⟨false, none, some "Invalid or expired magic link token"⟩, st2)) ∧
    (∀ (st0 st1 : RedisStore) (now0 now1 : Nat) (userId email token : String) (expAt : Nat),
      generateVerificationTokenWithExpiry st0 now0 userId email token = .ok (token, expAt, st1) →
      now1 ≤ now0 + VERIFICATION_TOKEN_EXPIRY →
      ∃ st2, consumeVerificationToken st1 now1 token email =
          .ok (⟨true, some userId, none⟩, st2) ∧
        ∀ now2, consumeVerificationToken st2 now2 token email =
          .ok (⟨false, none, some "Invalid or expired verification token"⟩, st2)) := by
  constructor
  · intro st0 st1 now0 now1 userId email token hgen htime
    rw [generateMagicLinkToken] at hgen
    cases hav : st0.available with
    | false =>
      rw [redisSetex, if_neg (by simp [hav])] at hgen
      simp at hgen
    | true =>
      rw [redisSetex, if_pos (by simp [hav])] at hgen
      simp only [Except.ok.injEq, Prod.mk.injEq, true_and] at hgen
      subst hgen
      have hne1 : ¬ (now0 + MAGIC_LINK_EXPIRY < now1) := by omega
      refine ⟨⟨(st0.entries.filter (fun e => e.key ≠ mlKey email token)).filter
          (fun e => e.key ≠ mlKey email token), st0.available⟩, ?_, ?_⟩
      · simp [consumeMagicLinkToken, validateMagicLinkToken, redisGet, redisLookup,
          redisDel, hav, hne1, List.find?_cons, List.filter_cons]
      · intro now2
        simp [consumeMagicLinkToken, validateMagicLinkToken, redisGet, redisLookup,
          hav, find?_filter_ne_none, find?_const_false]
  · intro st0 st1 now0 now1 userId email token expAt hgen htime
    rw [generateVerificationTokenWithExpiry] at hgen
    cases hav : st0.available with
    | false =>
      rw [redisSetex, if_neg (by simp [hav])] at hgen
      simp at hgen
    | true =>
      rw [redisSetex, if_pos (by simp [hav])] at hgen
      simp only [Except.ok.injEq, Prod.mk.injEq, true_and] at hgen
      obtain ⟨-, hgen⟩ := hgen
      subst hgen
      have hne1 : ¬ (now0 + VERIFICATION_TOKEN_EXPIRY < now1) := by omega
      refine ⟨⟨(st0.entries.filter (fun e => e.key ≠ vKey email token)).filter
          (fun e => e.key ≠ vKey email token), st0.available⟩, ?_, ?_⟩
      · simp [consumeVerificationToken, validateVerificationToken, redisGet, redisLookup,
          redisDel, hav, hne1, List.find?_cons, List.filter_cons]
      · intro now2
        simp [consumeVerificationToken, validateVerificationToken, redisGet, redisLookup,
          hav, find?_filter_ne_none, find?_const_false]

/-- Witness for C3 at a concrete input (both one-time token kinds). -/
theorem consume_oneTimeToken_exactly_once_witness :
    (∃ st2, consumeMagicLinkToken
        (⟨[⟨mlKey "a@x" "t1", .data ⟨"u1", "a@x", 600000, "magic_link"⟩, 600, 0⟩], true⟩)
        1000 "t1" "a@x" = .ok (⟨true, some "u1", none⟩, st2) ∧
      ∀ now2, consumeMagicLinkToken st2 now2 "t1" "a@x" =
        .ok (⟨false, none, some "Invalid or expired magic link token"⟩, st2)) ∧
    (∃ st2, consumeVerificationToken
        (⟨[⟨vKey "a@x" "t2", .data ⟨"u1", "a@x", 86400000, "email_verification"⟩,
            86400, 0⟩], true⟩)
        1000 "t2" "a@x" = .ok (⟨true, some "u1", none⟩, st2) ∧
      ∀ now2, consumeVerificationToken st2 now2 "t2" "a@x" =
        .ok (⟨false, none, some "Invalid or expired verification token"⟩, st2)) :=
  ⟨consume_oneTimeToken_exactly_once.1 ⟨[], true⟩ _ 0 1000 "u1" "a@x" "t1" (by rfl)
    (by decide),
   consume_oneTimeToken_exactly_once.2 ⟨[], true⟩ _ 0 1000 "u1" "a@x" "t2" 86400000 (by rfl)
    (by decide)⟩

/-! ## C8 -/

/-- Claim C8: A one-time token issued with TTL `t`, validated after `t` has
elapsed while its record is still present, fails with the expiry error and the
record is deleted as a side effect (eager cleanup), even though it was never
consumed — for both magic-link and verification tokens. -/
theorem validate_after_ttl_expires_and_deletes :
    (∀ (st0 st1 : RedisStore) (now0 now1 : Nat) (userId email token : String),
      generateMagicLinkToken st0 now0 userId email token = .ok (token, st1) →
      now0 + MAGIC_LINK_EXPIRY < now1 →
      (validateMagicLinkToken st1 now1 token email).1 =
        ⟨false, none, some "Magic link token has expired"⟩ ∧
      redisLookup (validateMagicLinkToken st1 now1 token email).2 (mlKey email token)
        = none) ∧
    (∀ (st0 st1 : RedisStore) (now0 now1 : Nat) (userId email token : String) (expAt : Nat),
      generateVerificationTokenWithExpiry st0 now0 userId email token = .ok (token, expAt, st1) →
      now0 + VERIFICATION_TOKEN_EXPIRY < now1 →
      (validateVerificationToken st1 now1 token email).1 =
        ⟨false, none, some "Verification token has expired"⟩ ∧
      redisLookup (validateVerificationToken st1 now1 token email).2 (vKey email token)
        = none) := by
  constructor
  · intro st0 st1 now0 now1 userId email token hgen htime
    rw [generateMagicLinkToken] at hgen
    cases hav : st0.available with
    | false =>
      rw [redisSetex, if_neg (by simp [hav])] at hgen
      simp at hgen
    | true =>
      rw [redisSetex, if_pos (by simp [hav])] at hgen
      simp only [Except.ok.injEq, Prod.mk.injEq, true_and] at hgen
      subst hgen
      constructor
      · simp [validateMagicLinkToken, redisGet, redisLookup, redisDel, hav, htime,
          List.find?_cons]
      · simp [validateMagicLinkToken, redisGet, redisLookup, redisDel, hav, htime,
          List.find?_cons, find?_filter_ne_none, find?_const_false]
  · intro st0 st1 now0 now1 userId email token expAt hgen htime
    rw [generateVerificationTokenWithExpiry] at hgen
    cases hav : st0.available with
    | false =>
      rw [redisSetex, if_neg (by simp [hav])] at hgen
      simp at hgen
    | true =>
      rw [redisSetex, if_pos (by simp [hav])] at hgen
      simp only [Except.ok.injEq, Prod.mk.injEq, true_and] at hgen
      obtain ⟨-, hgen⟩ := hgen
      subst hgen
      constructor
      · simp [validateVerificationToken, redisGet, redisLookup, redisDel, hav, htime,
          List.find?_cons]
      · simp [validateVerificationToken, redisGet, redisLookup, redisDel, hav, htime,
          List.find?_cons, find?_filter_ne_none, find?_const_false]

/-- Witness for C8 at a concrete input (both one-time token kinds, validated
one millisecond past expiry). -/
theorem validate_after_ttl_expires_and_deletes_witness :
    ((validateMagicLinkToken
        (⟨[⟨mlKey "a@x" "t1", .data ⟨"u1", "a@x", 600000, "magic_link"⟩, 600, 0⟩], true⟩)
        600001 "t1" "a@x").1 =
      ⟨false, none, some "Magic link token has expired"⟩ ∧
      redisLookup (validateMagicLinkToken
        (⟨[⟨mlKey "a@x" "t1", .data ⟨"u1", "a@x", 600000, "magic_link"⟩, 600, 0⟩], true⟩)
        600001 "t1" "a@x").2 (mlKey "a@x" "t1") = none) ∧
    ((validateVerificationToken
        (⟨[⟨vKey "a@x" "t2", .data ⟨"u1", "a@x", 86400000, "email_verification"⟩,
            86400, 0⟩], true⟩)
        86400001 "t2" "a@x").1 =
      ⟨false, none, some "Verification token has expired"⟩ ∧
      redisLookup (validateVerificationToken
        (⟨[⟨vKey "a@x" "t2", .data ⟨"u1", "a@x", 86400000, "email_verification"⟩,
            86400, 0⟩], true⟩)
        86400001 "t2" "a@x").2 (vKey "a@x" "t2") = none) :=
  ⟨validate_after_ttl_expires_and_deletes.1 ⟨[], true⟩ _ 0 600001 "u1" "a@x" "t1"
    (by rfl) (by decide),
   validate_after_ttl_expires_and_deletes.2 ⟨[], true⟩ _ 0 86400001 "u1" "a@x" "t2"
    86400000 (by rfl) (by decide)⟩

/-! ## C4 -/

/-- Composite keys of the shape `pre ++ e ++ mid ++ t` determine the embedded
email when the raw token is fixed. -/
theorem composite_key_inj (pre e1 e2 mid t : String)
    (h : pre ++ e1 ++ mid ++ t = pre ++ e2 ++ mid ++ t) : e1 = e2 := by
  have hd := congrArg String.data h
  simp only [String.data_append] at hd
  have h1 := List.append_cancel_right hd
  have h2 := List.append_cancel_right h1
  have h3 := List.append_cancel_left h2
  cases e1
  cases e2
  exact congrArg String.mk h3

/-- Distinct emails give distinct magic-link keys for the same raw token. -/
theorem mlKey_ne_of_email_ne (e1 e2 t : String) (h : e1 ≠ e2) :
    mlKey e1 t ≠ mlKey e2 t :=
  fun heq => h (composite_key_inj "magic_link:" e1 e2 ":" t heq)

/-- Distinct emails give distinct verification keys for the same raw token. -/
theorem vKey_ne_of_email_ne (e1 e2 t : String) (h : e1 ≠ e2) :
    vKey e1 t ≠ vKey e2 t :=
  fun heq => h (composite_key_inj "verification:" e1 e2 ":" t heq)

/-- If a predicate finds nothing in a list, it finds nothing in any filtered
sublist. -/
theorem find?_filter_of_none (l : List REntry) (p q : REntry → Bool)
    (h : l.find? p = none) : (l.filter q).find? p = none := by
  induction l with
  | nil => rfl
  | cons a l ih =>
    rw [List.find?_cons] at h
    cases hpa : p a
    · rw [hpa] at h
      simp only [List.filter_cons]
      cases q a
      · exact ih h
      · simp only [if_true]
        rw [List.find?_cons, hpa]
        exact ih h
    · rw [hpa] at h
      simp at h

/-- If every element satisfying `p` also satisfies `q` and `q` finds nothing,
then `p` finds nothing. -/
theorem find?_none_of_imp (l : List REntry) (p q : REntry → Bool)
    (himp : ∀ a, p a = true → q a = true) (h : l.find? q = none) : l.find? p = none := by
  induction l with
  | nil => rfl
  | cons a l ih =>
    rw [List.find?_cons] at h ⊢
    cases hqa : q a
    · rw [hqa] at h
      cases hpa : p a
      · exact ih h
      · exact absurd (himp a hpa) (by simp [hqa])
    · rw [hqa] at h
      simp at h

/-- Claim C4, counterexample: With a correct raw token but a different email,
validation fails with the not-found error `Invalid or expired magic link token`
— not with the email-mismatch error `Invalid magic link token` that the
timing-safe comparison produces — because the lookup key embeds the supplied
email. -/
theorem email_mismatch_yields_not_found_counterexample :
    (validateMagicLinkToken
      ⟨[⟨mlKey "a@x.com" "t1", .data ⟨"u1", "a@x.com", 600000, "magic_link"⟩, 600, 0⟩],
        true⟩
      1000 "t1" "b@x.com").1 =
      ⟨false, none, some "Invalid or expired magic link token"⟩ ∧
    ("Invalid or expired magic link token" : String) ≠ "Invalid magic link token" := by
  constructor
  · rfl
  · decide

/-- Claim C4, amended: For a freshly issued one-time token, supplying the
correct raw token with a different email makes the store lookup miss (the key
embeds the supplied email), so validation fails with the not-found-or-expired
error rather than an email-mismatch error; with the exactly matching email it
succeeds and returns the stored subject.  The timing-safe email comparison
never decides the mismatch case. -/
theorem oneTime_mismatched_email_fails_as_not_found :
    (∀ (st0 st1 : RedisStore) (now0 now1 : Nat) (userId email email2 token : String),
      generateMagicLinkToken st0 now0 userId email token = .ok (token, st1) →
      now1 ≤ now0 + MAGIC_LINK_EXPIRY →
      email2 ≠ email →
      redisLookup st0 (mlKey email2 token) = none →
      (validateMagicLinkToken st1 now1 token email2).1 =
        ⟨false, none, some "Invalid or expired magic link token"⟩ ∧
      (validateMagicLinkToken st1 now1 token email).1 = ⟨true, some userId, none⟩) ∧
    (∀ (st0 st1 : RedisStore) (now0 now1 : Nat) (userId email email2 token : String)
        (expAt : Nat),
      generateVerificationTokenWithExpiry st0 now0 userId email token = .ok (token, expAt, st1) →
      now1 ≤ now0 + VERIFICATION_TOKEN_EXPIRY →
      email2 ≠ email →
      redisLookup st0 (vKey email2 token) = none →
      (validateVerificationToken st1 now1 token email2).1 =
        ⟨false, none, some "Invalid or expired verification token"⟩ ∧
      (validateVerificationToken st1 now1 token email).1 = ⟨true, some userId, none⟩) := by
  constructor
  · intro st0 st1 now0 now1 userId email email2 token hgen htime hem hlook
    rw [generateMagicLinkToken] at hgen
    cases hav : st0.available with
    | false =>
      rw [redisSetex, if_neg (by simp [hav])] at hgen
      simp at hgen
    | true =>
      rw [redisSetex, if_pos (by simp [hav])] at hgen
      simp only [Except.ok.injEq, Prod.mk.injEq, true_and] at hgen
      subst hgen
      have hk : ¬ (mlKey email token = mlKey email2 token) :=
        mlKey_ne_of_email_ne email email2 token (Ne.symm hem)
      have hfind0 : st0.entries.find? (fun e => e.key = mlKey email2 token) = none := by
        rw [redisLookup] at hlook
        simpa using hlook
      have hfind1 : st0.entries.find?
          (fun a => !decide (a.key = mlKey email token) &&
            decide (a.key = mlKey email2 token)) = none :=
        find?_none_of_imp _ _ _ (fun a h => by rw [Bool.and_eq_true] at h; exact h.2) hfind0
      have hne1 : ¬ (now0 + MAGIC_LINK_EXPIRY < now1) := by omega
      constructor
      · simp [validateMagicLinkToken, redisGet, redisLookup, hav, List.find?_cons, hk,
          hfind1]
      · simp [validateMagicLinkToken, redisGet, redisLookup, redisDel, hav, hne1,
          List.find?_cons]
  · intro st0 st1 now0 now1 userId email email2 token expAt hgen htime hem hlook
    rw [generateVerificationTokenWithExpiry] at hgen
    cases hav : st0.available with
    | false =>
      rw [redisSetex, if_neg (by simp [hav])] at hgen
      simp at hgen
    | true =>
      rw [redisSetex, if_pos (by simp [hav])] at hgen
      simp only [Except.ok.injEq, Prod.mk.injEq, true_and] at hgen
      obtain ⟨-, hgen⟩ := hgen
      subst hgen
      have hk : ¬ (vKey email token = vKey email2 token) :=
        vKey_ne_of_email_ne email email2 token (Ne.symm hem)
      have hfind0 : st0.entries.find? (fun e => e.key = vKey email2 token) = none := by
        rw [redisLookup] at hlook
        simpa using hlook
      have hfind1 : st0.entries.find?
          (fun a => !decide (a.key = vKey email token) &&
            decide (a.key = vKey email2 token)) = none :=
        find?_none_of_imp _ _ _ (fun a h => by rw [Bool.and_eq_true] at h; exact h.2) hfind0
      have hne1 : ¬ (now0 + VERIFICATION_TOKEN_EXPIRY < now1) := by omega
      constructor
      · simp [validateVerificationToken, redisGet, redisLookup, hav, List.find?_cons, hk,
          hfind1]
      · simp [validateVerificationToken, redisGet, redisLookup, redisDel, hav, hne1,
          List.find?_cons]

/-- Witness for the amended C4 at a concrete input (both one-time token
kinds). -/
theorem oneTime_mismatched_email_fails_as_not_found_witness :
    ((validateMagicLinkToken
        (⟨[⟨mlKey "a@x" "t1", .data ⟨"u1", "a@x", 600000, "magic_link"⟩, 600, 0⟩], true⟩)
        1000 "t1" "b@x").1 =
      ⟨false, none, some "Invalid or expired magic link token"⟩ ∧
     (validateMagicLinkToken
        (⟨[⟨mlKey "a@x" "t1", .data ⟨"u1", "a@x", 600000, "magic_link"⟩, 600, 0⟩], true⟩)
        1000 "t1" "a@x").1 = ⟨true, some "u1", none⟩) ∧
    ((validateVerificationToken
        (⟨[⟨vKey "a@x" "t2", .data ⟨"u1", "a@x", 86400000, "email_verification"⟩,
            86400, 0⟩], true⟩)
        1000 "t2" "b@x").1 =
      ⟨false, none, some "Invalid or expired verification token"⟩ ∧
     (validateVerificationToken
        (⟨[⟨vKey "a@x" "t2", .data ⟨"u1", "a@x", 86400000, "email_verification"⟩,
            86400, 0⟩], true⟩)
        1000 "t2" "a@x").1 = ⟨true, some "u1", none⟩) :=
  ⟨oneTime_mismatched_email_fails_as_not_found.1 ⟨[], true⟩ _ 0 1000 "u1" "a@x" "b@x" "t1"
    (by rfl) (by decide) (by decide) (by rfl),
   oneTime_mismatched_email_fails_as_not_found.2 ⟨[], true⟩ _ 0 1000 "u1" "a@x" "b@x" "t2"
    86400000 (by rfl) (by decide) (by decide) (by rfl)⟩

/-! ## C5 -/

/-- Claim C5, counterexample: `blacklistToken` on an undecodable token completes
without error and leaves the store unchanged — it does not fail with a
malformed-token error, because `jwt.decode` returns null and the
`if (decoded && decoded.exp)` guard silently skips. -/
theorem blacklistToken_malformed_is_silent_noop :
    blacklistToken ⟨[], true⟩ 0 (.raw "garbage") = .ok ⟨[], true⟩ := by
  rfl

/-- Claim C5, amended: `blacklistToken` decodes the token without trusting the
signature and computes `ttl = exp - now` (seconds): when the token is expired
(`ttl ≤ 0`) it is a no-op leaving the store unchanged; when `ttl > 0` it stores
the presence entry under `blacklist:<hash(token)>` with exactly that TTL
(so the TTL of the entry equals — hence never exceeds — the remaining validity
of the token); and when the token cannot be decoded it is a silent no-op rather
than an error. -/
theorem blacklistToken_ttl_spec :
    (∀ (st : RedisStore) (nowMs : Nat) (tok : TokenStr),
      jwtDecode tok = none → blacklistToken st nowMs tok = .ok st) ∧
    (∀ (st : RedisStore) (nowMs : Nat) (tok : TokenStr) (p : TokenPayload),
      jwtDecode tok = some p → p.exp ≤ nowMs / 1000 →
      blacklistToken st nowMs tok = .ok st) ∧
    (∀ (st : RedisStore) (nowMs : Nat) (tok : TokenStr) (p : TokenPayload),
      jwtDecode tok = some p → nowMs / 1000 < p.exp → st.available = true →
      blacklistToken st nowMs tok =
        .ok ⟨⟨"blacklist:" ++ hashToken tok, .plain "1", p.exp - nowMs / 1000, nowMs⟩ ::
          st.entries.filter (fun e => e.key ≠ "blacklist:" ++ hashToken tok), true⟩) := by
  refine ⟨?_, ?_, ?_⟩
  · intro st nowMs tok hdec
    rw [blacklistToken, hdec]
  · intro st nowMs tok p hdec hexp
    by_cases h0 : p.exp = 0
    · simp [blacklistToken, hdec, h0]
    · simp [blacklistToken, hdec, h0]
      intro h
      exfalso
      omega
  · intro st nowMs tok p hdec hlive hav
    have h0 : ¬ (p.exp = 0) := by omega
    simp [blacklistToken, hdec, h0, redisSetex, hav]
    have hc : ((nowMs : Int) / 1000) < (p.exp : Int) := by omega
    rw [if_pos hc]
    have htn : ((p.exp : Int) - (nowMs : Int) / 1000).toNat = p.exp - nowMs / 1000 := by omega
    rw [htn]

/-- Witness for the amended C5 at concrete inputs: an undecodable token, an
already-expired token, and a live token. -/
theorem blacklistToken_ttl_spec_witness :
    blacklistToken ⟨[], true⟩ 5000 (.raw "junk") = .ok ⟨[], true⟩ ∧
    blacklistToken ⟨[], true⟩ 2000000
      (.jwt ⟨"u", "e", true, some "access", 0, 900⟩ "s" ISSUER AUDIENCE) = .ok ⟨[], true⟩ ∧
    blacklistToken ⟨[], true⟩ 5000
      (.jwt ⟨"u", "e", true, some "access", 0, 900⟩ "s" ISSUER AUDIENCE) =
      .ok ⟨[⟨"blacklist:" ++ hashToken
          (.jwt ⟨"u", "e", true, some "access", 0, 900⟩ "s" ISSUER AUDIENCE),
          .plain "1", 895, 5000⟩], true⟩ :=
  ⟨blacklistToken_ttl_spec.1 ⟨[], true⟩ 5000 (.raw "junk") (by rfl),
   blacklistToken_ttl_spec.2.1 ⟨[], true⟩ 2000000
     (.jwt ⟨"u", "e", true, some "access", 0, 900⟩ "s" ISSUER AUDIENCE)
     ⟨"u", "e", true, some "access", 0, 900⟩ (by rfl) (by decide),
   blacklistToken_ttl_spec.2.2 ⟨[], true⟩ 5000
     (.jwt ⟨"u", "e", true, some "access", 0, 900⟩ "s" ISSUER AUDIENCE)
     ⟨"u", "e", true, some "access", 0, 900⟩ (by rfl) (by decide) (by rfl)⟩

/-! ## C9 -/

/-- Splitting a key list into a prefix and the rest and filtering in two passes
is the same as filtering against the whole list. -/
theorem filter_not_mem_take_drop (l : List REntry) (ks : List String) (n : Nat) :
    ((l.filter (fun e => ¬ e.key ∈ ks.take n)).filter (fun e => ¬ e.key ∈ ks.drop n)) =
      l.filter (fun e => ¬ e.key ∈ ks) := by
  rw [List.filter_filter]
  apply List.filter_congr
  intro e _
  have hiff : e.key ∈ ks ↔ e.key ∈ ks.take n ∨ e.key ∈ ks.drop n := by
    conv_lhs => rw [← List.take_append_drop n ks]
    exact List.mem_append
  by_cases h1 : e.key ∈ ks.take n <;> by_cases h2 : e.key ∈ ks.drop n <;>
    simp [h1, h2, hiff]

/-- The batched delete loop, on an available store, deletes exactly the listed
keys and reports the length of the key list. -/
theorem delInBatches_eq (fuel : Nat) : ∀ (st : RedisStore) (ks : List String),
    ks.length ≤ fuel → st.available = true →
    delInBatches st ks =
      .ok (ks.length, ⟨st.entries.filter (fun e => ¬ e.key ∈ ks), true⟩) := by
  induction fuel with
  | zero =>
    intro st ks hlen hav
    obtain ⟨se, sa⟩ := st
    have hsa : sa = true := hav
    subst hsa
    have hks : ks = [] := List.eq_nil_of_length_eq_zero (Nat.le_zero.mp hlen)
    subst hks
    rw [delInBatches]
    simp
  | succ n ih =>
    intro st ks hlen hav
    obtain ⟨se, sa⟩ := st
    have hsa : sa = true := hav
    subst hsa
    by_cases hks : ks = []
    · subst hks
      rw [delInBatches]
      simp
    · rw [delInBatches, dif_neg hks]
      have hpos : 0 < ks.length := List.length_pos.mpr hks
      have hlen2 : (ks.drop 100).length ≤ n := by
        simp only [List.length_drop]
        omega
      have hrw : redisDelMany ⟨se, true⟩ (ks.take 100) =
          .ok ⟨se.filter (fun e => ¬ e.key ∈ ks.take 100), true⟩ := by
        simp [redisDelMany]
      have hrec := ih ⟨se.filter (fun e => ¬ e.key ∈ ks.take 100), true⟩ (ks.drop 100)
        hlen2 rfl
      simp only [hrw, hrec, Except.ok.injEq, Prod.mk.injEq, RedisStore.mk.injEq]
      refine ⟨?_, ?_, trivial⟩
      · simp only [List.length_take, List.length_drop]
        omega
      · exact filter_not_mem_take_drop se ks 100

/-- The `delInBatches` on an available store, with the fuel chosen as the key-list
length. -/
theorem delInBatches_ok (st : RedisStore) (ks : List String) (hav : st.available = true) :
    delInBatches st ks =
      .ok (ks.length, ⟨st.entries.filter (fun e => ¬ e.key ∈ ks), true⟩) :=
  delInBatches_eq ks.length st ks le_rfl hav

/-- Deleting exactly the keys reported by `KEYS pre*` removes exactly the
entries whose key matches the pattern. -/
theorem filter_not_mem_keys (l : List REntry) (pre : String) :
    l.filter (fun e => ¬ e.key ∈
        ((l.filter (fun x => keyMatches pre x.key)).map (fun x => x.key))) =
      l.filter (fun e => ¬ keyMatches pre e.key) := by
  apply List.filter_congr
  intro e he
  have hiff : (e.key ∈ ((l.filter (fun x => keyMatches pre x.key)).map (fun x => x.key)))
      ↔ keyMatches pre e.key = true := by
    constructor
    · intro h
      obtain ⟨x, hx, hxe⟩ := List.mem_map.mp h
      have := (List.mem_filter.mp hx).2
      rw [hxe] at this
      exact this
    · intro hp
      exact List.mem_map.mpr ⟨e, List.mem_filter.mpr ⟨he, hp⟩, rfl⟩
  simp [hiff]

/-- The three sequential sweep stages account for exactly the entries matching
any of the three patterns. -/
theorem countP_stages_keys (l : List REntry) :
    (l.filter (fun e => keyMatches "magic_link:" e.key)).length
      + (l.filter (fun a => keyMatches "verification:" a.key &&
          !keyMatches "magic_link:" a.key)).length
      + (l.filter (fun a => keyMatches "blacklist:" a.key &&
          (!keyMatches "verification:" a.key && !keyMatches "magic_link:" a.key))).length
      = l.countP (fun e => keyMatches "magic_link:" e.key ||
          keyMatches "verification:" e.key || keyMatches "blacklist:" e.key) := by
  induction l with
  | nil => rfl
  | cons a l ih =>
    cases h1 : keyMatches "magic_link:" a.key <;>
      cases h2 : keyMatches "verification:" a.key <;>
      cases h3 : keyMatches "blacklist:" a.key <;>
      simp [List.filter_cons, List.countP_cons, h1, h2, h3] <;>
      omega

/-- Filtering out the three patterns in sequence equals filtering out their
disjunction. -/
theorem filter_stages_keys (l : List REntry) :
    l.filter (fun a => !keyMatches "blacklist:" a.key &&
        (!keyMatches "verification:" a.key && !keyMatches "magic_link:" a.key))
      = l.filter (fun e => !keyMatches "magic_link:" e.key &&
          !keyMatches "verification:" e.key && !keyMatches "blacklist:" e.key) := by
  apply List.filter_congr
  intro e _
  cases h1 : keyMatches "magic_link:" e.key <;>
    cases h2 : keyMatches "verification:" e.key <;>
    cases h3 : keyMatches "blacklist:" e.key <;>
    simp [h1, h2, h3]

/-- Claim C9, counterexample: `cleanupExpiredTokens` deletes a magic-link entry
whose TTL has not yet run out (entry written at 0 ms with 600 s TTL, so it
expires only at 600000 ms), and counts it in `removedCount` — so not every
deleted entry is expired. -/
theorem cleanup_deletes_unexpired_entry_counterexample :
    cleanupExpiredTokens
      ⟨[⟨mlKey "a@x.com" "t1", .data ⟨"u1", "a@x.com", 600000, "magic_link"⟩, 600, 0⟩],
        true⟩ = .ok (1, ⟨[], true⟩) ∧
    0 < entryExpiryMs
      ⟨mlKey "a@x.com" "t1", .data ⟨"u1", "a@x.com", 600000, "magic_link"⟩, 600, 0⟩ := by
  constructor
  · simp [cleanupExpiredTokens, cleanupCore, delInBatches, redisKeys, redisDelMany, mlKey,
      keyMatches, bind, Except.bind, pure, Except.pure]
  · decide

/-- Claim C9, amended: On an available store, `cleanupExpiredTokens` scans the
magic-link, verification and blacklist key patterns in bounded batches and
deletes **all** matching keys regardless of whether their TTL has expired (the
sweep is time-independent), returning a `removedCount` equal to the number of
deleted keys. -/
theorem cleanupExpiredTokens_deletes_all_matching (st : RedisStore)
    (hav : st.available = true) :
    cleanupExpiredTokens st =
      .ok (st.entries.countP (fun e => keyMatches "magic_link:" e.key ||
            keyMatches "verification:" e.key || keyMatches "blacklist:" e.key),
        ⟨st.entries.filter (fun e => ¬ (keyMatches "magic_link:" e.key ||
            keyMatches "verification:" e.key || keyMatches "blacklist:" e.key)), true⟩) := by
  obtain ⟨se, sa⟩ := st
  have hsa : sa = true := hav
  subst hsa
  simp only [cleanupExpiredTokens, cleanupCore, bind, Except.bind, redisKeys,
    if_true, delInBatches_ok, filter_not_mem_keys, List.length_map]
  simp [pure, Except.pure, countP_stages_keys, filter_stages_keys]

/-- Witness for the amended C9 at a concrete input: a store holding one entry
of each pattern plus an unrelated key. -/
theorem cleanupExpiredTokens_deletes_all_matching_witness :
    cleanupExpiredTokens
      ⟨[⟨mlKey "a@x" "t1", .data ⟨"u1", "a@x", 600000, "magic_link"⟩, 600, 0⟩,
        ⟨vKey "a@x" "t2", .data ⟨"u1", "a@x", 86400000, "email_verification"⟩, 86400, 0⟩,
        ⟨"blacklist:h", .plain "1", 900, 0⟩,
        ⟨"other:key", .plain "x", 10, 0⟩], true⟩ =
      .ok (3, ⟨[⟨"other:key", .plain "x", 10, 0⟩], true⟩) := by
  have h := cleanupExpiredTokens_deletes_all_matching
    ⟨[⟨mlKey "a@x" "t1", .data ⟨"u1", "a@x", 600000, "magic_link"⟩, 600, 0⟩,
      ⟨vKey "a@x" "t2", .data ⟨"u1", "a@x", 86400000, "email_verification"⟩, 86400, 0⟩,
      ⟨"blacklist:h", .plain "1", 900, 0⟩,
      ⟨"other:key", .plain "x", 10, 0⟩], true⟩ rfl
  rw [h]
  rfl

end Lawrose
